import Mathlib

/-!
Verification development for the CryoET-DB repository.

Shallow embedding of the two source files:
  - src/etl/load_data.py   — credential bootstrap against Vault, readiness
    polling, and the transactional ETL load (schema apply, dimension merge
    of tomograms, snapshot replace of annotations).
  - src/query_tool.py      — credential lookup (fatal on not-found) and the
    read-only query operations count_annotations and find_rich_tomograms.

External collaborators (Vault, PostgreSQL, the filesystem) are modelled as
explicit state threaded through the functions; process exits and raised
exceptions become explicit outcome values; database work performed inside
the single transaction is recorded in a trace so that claims about "what
was touched" can be stated.
-/

namespace CryoET

/-- The Credential Document stored in Vault at the fixed path SECRET_PATH
(keys POSTGRES_USER, POSTGRES_PASSWORD, POSTGRES_DB, as written by
load_data.py). -/
structure Creds where
  POSTGRES_USER : String
  POSTGRES_PASSWORD : String
  POSTGRES_DB : String
  deriving DecidableEq, Repr

/-- The secret store: at most one document at the fixed path SECRET_PATH.
`secret = none` models the hvac InvalidPath (not-found) outcome of
read_secret_version. -/
structure Vault where
  secret : Option Creds
  deriving DecidableEq, Repr

/-- The process environment as seen by os.getenv for the three first-run
variables. `none` models an absent variable; `some ""` an empty one. -/
structure Env where
  POSTGRES_USER : Option String
  POSTGRES_PASSWORD : Option String
  POSTGRES_DB : Option String
  deriving DecidableEq, Repr

/-- Python truthiness of an os.getenv result, as tested by
`not all([pg_user, pg_password, pg_db])`: None and the empty string are
falsy. -/
def truthy : Option String → Bool
  | none => false
  | some s => !s.isEmpty

/-- Result of a get_db_credentials_from_vault call: either credentials are
returned to the caller, or the process terminates (sys.exit(0) on the
first-run re-run signal, sys.exit(1) on a fatal condition). -/
inductive CredResult where
  | creds (c : Creds)
  | exitRerun
  | exitFatal (msg : String)
  deriving DecidableEq, Repr

/-- Process exit status produced by a CredResult, `none` when the call
returns normally and the process continues. -/
def credExitCode : CredResult → Option Nat
  | .creds _ => none
  | .exitRerun => some 0
  | .exitFatal _ => some 1

/-- The fatal message logged by load_data.py when a first-run environment
variable is missing. -/
def firstRunFatalMsg : String :=
  "FATAL: On first run, POSTGRES_USER, POSTGRES_PASSWORD, and POSTGRES_DB must be set for Vault initialization."

/-- The fatal message logged by query_tool.py when the secret is absent. -/
def queryFatalMsg : String :=
  "FATAL: Secrets not found in Vault. Please run the ETL script first to initialize them."

namespace Etl

/-- get_db_credentials_from_vault of src/etl/load_data.py. Reads the secret;
on InvalidPath (secret absent) reads the three environment variables, exits 1
if any is falsy, otherwise writes them to Vault and exits 0 asking for a
re-run (`writeOk` is false when create_or_update_secret raises, in which case
the handler exits 1). Returns the call result together with the Vault state
after the call. -/
def get_db_credentials_from_vault (v : Vault) (env : Env) (writeOk : Bool) :
    CredResult × Vault :=
  match v.secret with
  | some doc => (.creds doc, v)
  | none =>
    let pg_user := env.POSTGRES_USER
    let pg_password := env.POSTGRES_PASSWORD
    let pg_db := env.POSTGRES_DB
    if !(truthy pg_user && truthy pg_password && truthy pg_db) then
      (.exitFatal firstRunFatalMsg, v)
    else if writeOk then
      (.exitRerun,
        { secret := some ⟨pg_user.getD "", pg_password.getD "", pg_db.getD ""⟩ })
    else
      (.exitFatal "FATAL: Could not write secrets to Vault.", v)

end Etl

namespace QueryTool

/-- get_db_credentials_from_vault of src/query_tool.py. Reads the secret; on
InvalidPath (or any other read failure) it exits 1 without touching the
environment or the store. The unused `env` parameter records that the ambient
environment is available but never consulted. -/
def get_db_credentials_from_vault (v : Vault) (_env : Env) :
    CredResult × Vault :=
  match v.secret with
  | some doc => (.creds doc, v)
  | none => (.exitFatal queryFatalMsg, v)

end QueryTool

/-- A row of the tomograms dimension table: generated serial id, unique
business key tomo_name, and the derived raw_volume_path. -/
structure TomoRow where
  tomo_id : Nat
  tomo_name : String
  raw_volume_path : String
  deriving DecidableEq, Repr

/-- A row of the annotations fact table. Coordinates are modelled as
integers (the CSV numeric payload is opaque to every claim). -/
structure AnnRow where
  annotation_id : Nat
  tomo_id : Nat
  coord_x : Int
  coord_y : Int
  coord_z : Int
  deriving DecidableEq, Repr

/-- The relational store: the two permanent tables with their serial
sequences, plus the temp_tomograms staging table written by to_sql with
if_exists=replace. -/
structure DB where
  tomograms : List TomoRow
  tomo_id_seq : Nat
  annotations : List AnnRow
  annotation_id_seq : Nat
  temp_tomograms : List (String × String)
  deriving DecidableEq, Repr

/-- A row of the source CSV after the rename tomo_id → tomo_name performed
by load_data.py on read. -/
structure CsvRow where
  tomo_name : String
  x : Int
  y : Int
  z : Int
  deriving DecidableEq, Repr

/-- pandas Series.unique, with the values already seen accumulated: keeps
the first occurrence of each value. -/
def pdUniqueAux (seen : List String) : List String → List String
  | [] => []
  | n :: rest =>
    if n ∈ seen then pdUniqueAux seen rest
    else n :: pdUniqueAux (n :: seen) rest

/-- pandas Series.unique: distinct values in order of first occurrence. -/
def pdUnique (l : List String) : List String := pdUniqueAux [] l

/-- The derived volume path, `lambda n: f"volumes/{n}.mrc"`. -/
def raw_volume_path_of (n : String) : String := "volumes/" ++ n ++ ".mrc"

/-- Names present in the tomograms table. -/
def tomoNames (db : DB) : List String := db.tomograms.map (fun t => t.tomo_name)

namespace Etl

/-- The INSERT ... SELECT ... ON CONFLICT (tomo_name) DO NOTHING merge from
the staged (tomo_name, raw_volume_path) rows into tomograms. On a name
conflict the existing row is untouched; the serial sequence is advanced for
every staged row (PostgreSQL evaluates the id default before resolving the
conflict), which is unobservable to every query in the repository. -/
def mergeTomograms (db : DB) : List (String × String) → DB
  | [] => db
  | row :: rest =>
    if db.tomograms.any (fun t => t.tomo_name = row.1) then
      mergeTomograms { db with tomo_id_seq := db.tomo_id_seq + 1 } rest
    else
      mergeTomograms
        { db with
          tomograms := db.tomograms ++ [⟨db.tomo_id_seq + 1, row.1, row.2⟩],
          tomo_id_seq := db.tomo_id_seq + 1 } rest

/-- The name → tomo_id mapping reread from the tomograms table after the
merge (`SELECT tomo_id, tomo_name FROM tomograms`, zipped into a dict and
applied with Series.map; a name absent from the table maps to NaN, here
`none`). -/
def tomo_map (db : DB) (n : String) : Option Nat :=
  (db.tomograms.find? (fun t => t.tomo_name = n)).map (fun t => t.tomo_id)

/-- Build the annotation rows appended by df_annotations.to_sql: serial ids
k, k+1, ... and tomo_id looked up through the reread mapping. A row whose
tomo_name is not in the mapping carries NaN, whose NULL insert violates the
NOT NULL / foreign-key constraint on annotations.tomo_id and raises — hence
`none`. (Modelled from the spec: that constraint lives in sql/schema.sql,
which is not under src/; the spec states every annotation's tomo_id must
reference an existing Tomogram row.) -/
def assignAnn (db : DB) (k : Nat) : List CsvRow → Option (List AnnRow)
  | [] => some []
  | r :: rest =>
    match tomo_map db r.tomo_name with
    | none => none
    | some tid =>
      match assignAnn db (k + 1) rest with
      | none => none
      | some l => some (⟨k, tid, r.x, r.y, r.z⟩ :: l)

/-- Modelled from the spec: sql/schema.sql is not under src/. The spec
requires the DDL to be idempotent (CREATE TABLE IF NOT EXISTS semantics),
so on a store that already has the tables it is the identity. -/
def apply_schema (db : DB) : DB := db

/-- The Vault readiness poll of main: `for i in range(5)`, checking
read_health_status each iteration, breaking on the first healthy answer and
sleeping `interval` (the hard-coded 2) after each unhealthy one; when the
fuel runs out the for-else raises. Returns (ready, number of health polls,
list of sleep durations). -/
def vaultGate (health : Nat → Bool) (interval : Nat) : Nat → Nat → Bool × Nat × List Nat
  | _, 0 => (false, 0, [])
  | i, fuel + 1 =>
    if health i then (true, 1, [])
    else
      let r := vaultGate health interval (i + 1) fuel
      (r.1, r.2.1 + 1, interval :: r.2.2)

/-- The database-touching operations of one run (plus the Vault secret
write), in the order main performs them. -/
inductive Step where
  | writeSecret
  | connectDb
  | beginTxn
  | applySchemaStep
  | writeTempTable
  | mergeDim
  | readTomoMap
  | truncateFacts
  | insertFacts
  deriving DecidableEq, Repr

/-- Fault injection for the collaborator calls that can raise: the Vault
secret write, the first database connection, and each SQL statement of the
transactional phase. `true` means the call succeeds. -/
structure Faults where
  vaultWriteOk : Bool
  connectOk : Bool
  schemaOk : Bool
  stageOk : Bool
  mergeOk : Bool
  rereadOk : Bool
  truncateOk : Bool
  insertOk : Bool
  deriving DecidableEq, Repr

/-- The faultless environment. -/
def noFaults : Faults := ⟨true, true, true, true, true, true, true, true⟩

/-- How one invocation of load_data.py ends: normal completion, the clean
return on a missing CSV, the sys.exit(0) re-run signal of the bootstrap, or
a sys.exit(1) fatal path. -/
inductive RunOutcome where
  | success
  | csvMissing
  | rerunRequired
  | fatal (msg : String)
  deriving DecidableEq, Repr

/-- Process exit status of a run (success and the missing-CSV return fall
off the end of main: status 0; the re-run signal is sys.exit(0); every
fatal handler is sys.exit(1)). -/
def exitCode : RunOutcome → Nat
  | .success => 0
  | .csvMissing => 0
  | .rerunRequired => 0
  | .fatal _ => 1

/-- The unique_tomos staging frame: distinct tomo_name values in first
occurrence order, each with its derived raw_volume_path. -/
def staged_tomos (rows : List CsvRow) : List (String × String) :=
  (pdUnique (rows.map (fun r => r.tomo_name))).map
    (fun n => (n, raw_volume_path_of n))

/-- Database state after staging and the dimension merge (temp_tomograms
replaced, tomograms merged with ON CONFLICT DO NOTHING). -/
def sync_db (db : DB) (rows : List CsvRow) : DB :=
  mergeTomograms { db with temp_tomograms := staged_tomos rows }
    (staged_tomos rows)

/-- The body of `with engine.begin() as connection:` — schema apply, CSV
existence check, staging, dimension merge, mapping reread, fact truncate
and bulk insert. Returns the outcome, the database state after the block
(engine.begin commits on normal exit and rolls back to the entry state when
the body raises), and the trace of statements executed inside the
transaction. -/
def run_txn (db : DB) (csv : Option (List CsvRow)) (f : Faults) :
    RunOutcome × DB × List Step :=
  if !f.schemaOk then
    (.fatal "schema apply failed", db, [.applySchemaStep])
  else
    let db1 := apply_schema db
    match csv with
    | none => (.csvMissing, db1, [.applySchemaStep])
    | some rows =>
      if !f.stageOk then
        (.fatal "staging temp_tomograms failed", db,
          [.applySchemaStep, .writeTempTable])
      else if !f.mergeOk then
        (.fatal "tomogram merge failed", db,
          [.applySchemaStep, .writeTempTable, .mergeDim])
      else
        let db3 := sync_db db1 rows
        if !f.rereadOk then
          (.fatal "tomogram mapping reread failed", db,
            [.applySchemaStep, .writeTempTable, .mergeDim, .readTomoMap])
        else if !f.truncateOk then
          (.fatal "truncate failed", db,
            [.applySchemaStep, .writeTempTable, .mergeDim, .readTomoMap,
             .truncateFacts])
        else
          match Etl.assignAnn db3 1 rows with
          | none =>
            (.fatal "annotation insert violated the tomo_id constraint", db,
              [.applySchemaStep, .writeTempTable, .mergeDim, .readTomoMap,
               .truncateFacts, .insertFacts])
          | some anns =>
            if !f.insertOk then
              (.fatal "annotation insert failed", db,
                [.applySchemaStep, .writeTempTable, .mergeDim, .readTomoMap,
                 .truncateFacts, .insertFacts])
            else
              (.success,
                { db3 with
                  annotations := anns,
                  annotation_id_seq := rows.length },
                [.applySchemaStep, .writeTempTable, .mergeDim, .readTomoMap,
                 .truncateFacts, .insertFacts])

/-- Result of one invocation of load_data.py main. -/
structure RunResult where
  outcome : RunOutcome
  db : DB
  vault : Vault
  trace : List Step
  healthPolls : Nat
  sleeps : List Nat
  deriving Repr

/-- main of src/etl/load_data.py: readiness poll (5 attempts, interval 2),
credential bootstrap, engine connection, then the transactional phase; the
outer handlers turn OperationalError and any other exception into
sys.exit(1). -/
def etl_main (vault : Vault) (env : Env) (health : Nat → Bool) (db : DB)
    (csv : Option (List CsvRow)) (f : Faults) : RunResult :=
  let gate := vaultGate health 2 0 5
  if !gate.1 then
    { outcome := .fatal "Vault is not available.", db := db, vault := vault,
      trace := [], healthPolls := gate.2.1, sleeps := gate.2.2 }
  else
    match get_db_credentials_from_vault vault env f.vaultWriteOk with
    | (.exitFatal m, v2) =>
      { outcome := .fatal m, db := db, vault := v2,
        trace := [], healthPolls := gate.2.1, sleeps := gate.2.2 }
    | (.exitRerun, v2) =>
      { outcome := .rerunRequired, db := db, vault := v2,
        trace := [.writeSecret], healthPolls := gate.2.1, sleeps := gate.2.2 }
    | (.creds _, v2) =>
      if !f.connectOk then
        { outcome := .fatal "Database connection failed", db := db,
          vault := v2, trace := [.connectDb],
          healthPolls := gate.2.1, sleeps := gate.2.2 }
      else
        let t := run_txn db csv f
        { outcome := t.1, db := t.2.1, vault := v2,
          trace := .connectDb :: .beginTxn :: t.2.2,
          healthPolls := gate.2.1, sleeps := gate.2.2 }

end Etl

namespace QueryTool

/-- The inner join `annotations a JOIN tomograms t ON a.tomo_id = t.tomo_id`
shared by the two query statements. -/
def sqlJoin (db : DB) : List (AnnRow × TomoRow) :=
  (db.annotations.map
    (fun a => (db.tomograms.filter (fun t => t.tomo_id = a.tomo_id)).map
      (fun t => (a, t)))).flatten

/-- count_annotations of src/query_tool.py:
`SELECT COUNT(a.annotation_id) FROM annotations a JOIN tomograms t ON
a.tomo_id = t.tomo_id WHERE t.tomo_name = :tomo_name`. The aggregate always
yields exactly one row, so scalar_one_or_none returns the count and the
printed value `result or 0` is that count. -/
def count_annotations (db : DB) (tomo_name : String) : Nat :=
  ((sqlJoin db).filter (fun p => p.2.tomo_name = tomo_name)).length

/-- The per-name group size of the find_rich_tomograms GROUP BY: the number
of join rows carrying that tomo_name. -/
def annotationCount (db : DB) (n : String) : Nat :=
  ((sqlJoin db).filter (fun p => p.2.tomo_name = n)).length

/-- Insert a (name, count) pair into a list kept in descending count order:
before the first element with a strictly smaller count. -/
def insertByCountDesc (p : String × Nat) : List (String × Nat) → List (String × Nat)
  | [] => [p]
  | q :: rest =>
    if q.2 < p.2 then p :: q :: rest else q :: insertByCountDesc p rest

/-- ORDER BY annotation_count DESC, as an insertion sort (ties in an
unspecified but deterministic order, as in the source contract). -/
def sortByCountDesc : List (String × Nat) → List (String × Nat)
  | [] => []
  | p :: rest => insertByCountDesc p (sortByCountDesc rest)

/-- find_rich_tomograms of src/query_tool.py:
`SELECT t.tomo_name, COUNT(a.annotation_id) FROM tomograms t JOIN
annotations a ON t.tomo_id = a.tomo_id GROUP BY t.tomo_name HAVING
COUNT(a.annotation_id) > :min_annotations ORDER BY annotation_count DESC`.
`min_annotations` is an argparse int, hence `Int`. -/
def find_rich_tomograms (db : DB) (min_annotations : Int) :
    List (String × Nat) :=
  let joined := sqlJoin db
  let names := pdUnique (joined.map (fun p => p.2.tomo_name))
  let groups := names.map (fun n => (n, annotationCount db n))
  sortByCountDesc (groups.filter (fun g => min_annotations < (g.2 : Int)))

end QueryTool

/-! Concrete fixtures used to instantiate the theorems below. -/

/-- A sample Credential Document. -/
def credsExample : Creds := ⟨"cryo_user", "cryo_pw", "cryoet_db"⟩

/-- Vault in steady state: the secret exists. -/
def vaultFound : Vault := ⟨some credsExample⟩

/-- Vault before the first run: no secret. -/
def vaultEmpty : Vault := ⟨none⟩

/-- An environment carrying all three first-run variables. -/
def envFull : Env := ⟨some "cryo_user", some "cryo_pw", some "cryoet_db"⟩

/-- An environment missing POSTGRES_USER. -/
def envMissing : Env := ⟨none, some "cryo_pw", some "cryoet_db"⟩

/-- A Vault health endpoint that is immediately healthy. -/
def healthUp : Nat → Bool := fun _ => true

/-- A Vault health endpoint that never becomes healthy. -/
def healthDown : Nat → Bool := fun _ => false

/-- An empty database. -/
def dbEmpty : DB := ⟨[], 0, [], 0, []⟩

/-- A small CSV: two annotations on tomogram t3, one on t7. -/
def csvExample : List CsvRow :=
  [⟨"t3", 1, 2, 3⟩, ⟨"t3", 4, 5, 6⟩, ⟨"t7", 7, 8, 9⟩]

/-- The database produced by loading csvExample into dbEmpty. -/
def dbLoaded : DB :=
  ⟨[⟨1, "t3", "volumes/t3.mrc"⟩, ⟨2, "t7", "volumes/t7.mrc"⟩], 2,
   [⟨1, 1, 1, 2, 3⟩, ⟨2, 1, 4, 5, 6⟩, ⟨3, 2, 7, 8, 9⟩], 3,
   [("t3", "volumes/t3.mrc"), ("t7", "volumes/t7.mrc")]⟩

/-- A database holding one tomogram that has no annotations. -/
def dbNoAnn : DB := ⟨[⟨1, "A", "volumes/A.mrc"⟩], 1, [], 0, []⟩

/-! Helper lemmas about the embedded operations. -/

theorem mem_pdUniqueAux (n : String) :
    ∀ (l seen : List String), n ∈ pdUniqueAux seen l ↔ n ∉ seen ∧ n ∈ l := by
  intro l
  induction l with
  | nil => intro seen; simp [pdUniqueAux]
  | cons m rest ih =>
    intro seen
    by_cases hm : m ∈ seen
    · rw [pdUniqueAux]
      simp only [hm, if_true, ih seen, List.mem_cons]
      by_cases hnm : n = m
      · subst hnm
        simp [hm]
      · simp [hnm]
    · rw [pdUniqueAux]
      simp only [hm, if_false, List.mem_cons, ih (m :: seen)]
      by_cases hnm : n = m
      · subst hnm
        simp [hm]
      · simp [hnm]

theorem mem_pdUnique (l : List String) (n : String) :
    n ∈ pdUnique l ↔ n ∈ l := by
  rw [pdUnique, mem_pdUniqueAux]
  simp

namespace Etl

theorem tomoNames_update_temp (db : DB) (x : List (String × String)) :
    tomoNames { db with temp_tomograms := x } = tomoNames db := rfl

theorem mergeTomograms_nil (db : DB) : mergeTomograms db [] = db := rfl

theorem mergeTomograms_untouched_fields (staged : List (String × String)) :
    ∀ db : DB,
      (mergeTomograms db staged).annotations = db.annotations ∧
      (mergeTomograms db staged).annotation_id_seq = db.annotation_id_seq ∧
      (mergeTomograms db staged).temp_tomograms = db.temp_tomograms := by
  induction staged with
  | nil => intro db; exact ⟨rfl, rfl, rfl⟩
  | cons row rest ih =>
    intro db
    by_cases h : db.tomograms.any (fun t => t.tomo_name = row.1)
    · simpa [mergeTomograms, h] using ih { db with tomo_id_seq := db.tomo_id_seq + 1 }
    · simpa [mergeTomograms, h] using
        ih { db with
          tomograms := db.tomograms ++ [⟨db.tomo_id_seq + 1, row.1, row.2⟩],
          tomo_id_seq := db.tomo_id_seq + 1 }

theorem mergeTomograms_tomograms_prefix (staged : List (String × String)) :
    ∀ db : DB, ∃ new,
      (mergeTomograms db staged).tomograms = db.tomograms ++ new := by
  induction staged with
  | nil => intro db; exact ⟨[], by simp [mergeTomograms]⟩
  | cons row rest ih =>
    intro db
    by_cases h : db.tomograms.any (fun t => t.tomo_name = row.1)
    · obtain ⟨new, hnew⟩ := ih { db with tomo_id_seq := db.tomo_id_seq + 1 }
      exact ⟨new, by simpa [mergeTomograms, h] using hnew⟩
    · obtain ⟨new, hnew⟩ := ih
        { db with
          tomograms := db.tomograms ++ [⟨db.tomo_id_seq + 1, row.1, row.2⟩],
          tomo_id_seq := db.tomo_id_seq + 1 }
      refine ⟨⟨db.tomo_id_seq + 1, row.1, row.2⟩ :: new, ?_⟩
      simp only [mergeTomograms, h, Bool.false_eq_true, if_false] at hnew ⊢
      rw [hnew]
      simp

theorem tomoNames_mergeTomograms (staged : List (String × String)) :
    ∀ (db : DB) (n : String),
      n ∈ tomoNames (mergeTomograms db staged) ↔
        n ∈ tomoNames db ∨ n ∈ staged.map Prod.fst := by
  induction staged with
  | nil => intro db n; simp [mergeTomograms]
  | cons row rest ih =>
    intro db n
    by_cases h : db.tomograms.any (fun t => t.tomo_name = row.1)
    · have hmem : row.1 ∈ tomoNames db := by
        rcases List.any_eq_true.mp h with ⟨t, ht, hname⟩
        exact List.mem_map.mpr ⟨t, ht, of_decide_eq_true hname⟩
      have := ih { db with tomo_id_seq := db.tomo_id_seq + 1 } n
      simp only [mergeTomograms, h, if_true, tomoNames] at this ⊢
      rw [this, List.map_cons, List.mem_cons]
      constructor
      · rintro (hl | hr)
        · exact Or.inl hl
        · exact Or.inr (Or.inr hr)
      · rintro (hl | heq | hr)
        · exact Or.inl hl
        · exact Or.inl (heq ▸ hmem)
        · exact Or.inr hr
    · have := ih
        { db with
          tomograms := db.tomograms ++ [⟨db.tomo_id_seq + 1, row.1, row.2⟩],
          tomo_id_seq := db.tomo_id_seq + 1 } n
      simp only [mergeTomograms, h, Bool.false_eq_true, if_false, tomoNames]
        at this ⊢
      rw [this]
      simp only [List.map_append, List.map_cons, List.map_nil, List.mem_append,
        List.mem_cons, List.not_mem_nil, or_false, List.mem_singleton]
      tauto

theorem mergeTomograms_noop (staged : List (String × String)) :
    ∀ db : DB, (∀ p ∈ staged, p.1 ∈ tomoNames db) →
      (mergeTomograms db staged).tomograms = db.tomograms := by
  induction staged with
  | nil => intro db _; rfl
  | cons row rest ih =>
    intro db hall
    have hmem : row.1 ∈ tomoNames db := hall row (List.mem_cons_self _ _)
    have h : db.tomograms.any (fun t => t.tomo_name = row.1) = true := by
      rcases List.mem_map.mp hmem with ⟨t, ht, hname⟩
      exact List.any_eq_true.mpr ⟨t, ht, by simp [hname]⟩
    have : (mergeTomograms { db with tomo_id_seq := db.tomo_id_seq + 1 } rest).tomograms
        = db.tomograms := by
      apply ih
      intro p hp
      exact hall p (List.mem_cons_of_mem _ hp)
    simpa [mergeTomograms, h] using this

theorem tomo_map_isSome_of_mem (db : DB) (n : String) (h : n ∈ tomoNames db) :
    (tomo_map db n).isSome := by
  rcases List.mem_map.mp h with ⟨t, ht, hname⟩
  have : (db.tomograms.find? (fun t => t.tomo_name = n)).isSome :=
    List.find?_isSome.mpr ⟨t, ht, by simp [hname]⟩
  simpa [tomo_map] using this

theorem tomo_map_spec (db : DB) (n : String) (tid : Nat)
    (h : tomo_map db n = some tid) :
    ∃ t, t ∈ db.tomograms ∧ t.tomo_id = tid ∧ t.tomo_name = n := by
  simp only [tomo_map, Option.map_eq_some'] at h
  rcases h with ⟨t, hfind, htid⟩
  have hp := List.find?_some hfind
  simp only [decide_eq_true_eq] at hp
  exact ⟨t, List.mem_of_find?_eq_some hfind, htid, hp⟩

theorem assignAnn_total (db : DB) :
    ∀ (rows : List CsvRow) (k : Nat),
      (∀ r ∈ rows, (tomo_map db r.tomo_name).isSome) →
      ∃ l, assignAnn db k rows = some l := by
  intro rows
  induction rows with
  | nil => intro k _; exact ⟨[], rfl⟩
  | cons r rest ih =>
    intro k hall
    have hr := hall r (List.mem_cons_self _ _)
    rcases Option.isSome_iff_exists.mp hr with ⟨tid, htid⟩
    obtain ⟨l, hl⟩ := ih (k + 1) (fun r2 h2 => hall r2 (List.mem_cons_of_mem _ h2))
    exact ⟨⟨k, tid, r.x, r.y, r.z⟩ :: l, by simp [assignAnn, htid, hl]⟩

theorem vaultGate_first_healthy (health : Nat → Bool) (interval i fuel : Nat)
    (h : health i = true) :
    vaultGate health interval i (fuel + 1) = (true, 1, []) := by
  simp [vaultGate, h]

theorem vaultGate_all_unhealthy (health : Nat → Bool) (interval : Nat) :
    ∀ (fuel i : Nat), (∀ j, j < fuel → health (i + j) = false) →
      vaultGate health interval i fuel =
        (false, fuel, List.replicate fuel interval) := by
  intro fuel
  induction fuel with
  | zero => intro i _; rfl
  | succ n ih =>
    intro i hall
    have h0 : health i = false := by simpa using hall 0 (Nat.succ_pos n)
    have hrec := ih (i + 1) (fun j hj => by
      have hidx : i + 1 + j = i + (j + 1) := by omega
      rw [hidx]
      exact hall (j + 1) (Nat.succ_lt_succ hj))
    simp [vaultGate, h0, hrec, List.replicate_succ]

theorem tomoNames_sync_db (db : DB) (rows : List CsvRow) (n : String) :
    n ∈ tomoNames (sync_db db rows) ↔
      n ∈ tomoNames db ∨ n ∈ (staged_tomos rows).map Prod.fst := by
  have := tomoNames_mergeTomograms (staged_tomos rows)
    { db with temp_tomograms := staged_tomos rows } n
  simpa [sync_db, tomoNames_update_temp] using this

theorem assignAnn_fk (db : DB) :
    ∀ (rows : List CsvRow) (k : Nat) (l : List AnnRow),
      assignAnn db k rows = some l →
      ∀ a ∈ l, ∃ t, t ∈ db.tomograms ∧ t.tomo_id = a.tomo_id := by
  intro rows
  induction rows with
  | nil =>
    intro k l h a ha
    simp only [assignAnn, Option.some.injEq] at h
    subst h
    exact absurd ha (List.not_mem_nil a)
  | cons r rest ih =>
    intro k l h a ha
    simp only [assignAnn] at h
    cases hmap : tomo_map db r.tomo_name with
    | none => rw [hmap] at h; exact absurd h (by simp)
    | some tid =>
      rw [hmap] at h
      cases hrec : assignAnn db (k + 1) rest with
      | none => rw [hrec] at h; exact absurd h (by simp)
      | some l2 =>
        rw [hrec] at h
        simp only [Option.some.injEq] at h
        subst h
        rcases List.mem_cons.mp ha with heq | hmem
        · obtain ⟨t, htmem, htid, _⟩ := tomo_map_spec db r.tomo_name tid hmap
          exact ⟨t, htmem, by rw [heq]; simpa using htid⟩
        · exact ih (k + 1) l2 hrec a hmem

theorem run_txn_rollback (db : DB) (csv : Option (List CsvRow)) (f : Faults)
    (o : RunOutcome) (db2 : DB) (tr : List Step)
    (h : run_txn db csv f = (o, db2, tr)) (hne : o ≠ .success) : db2 = db := by
  simp only [run_txn] at h
  repeat' split at h
  all_goals
    simp only [Prod.mk.injEq] at h
  all_goals
    obtain ⟨ho, hdb, htr⟩ := h
  all_goals
    first
      | exact hdb.symm
      | exact absurd ho.symm hne

theorem run_txn_csv_missing (db : DB) (f : Faults) (hs : f.schemaOk = true) :
    run_txn db none f = (.csvMissing, db, [.applySchemaStep]) := by
  simp [run_txn, hs, apply_schema]

theorem run_txn_success (db : DB) (rows : List CsvRow) (f : Faults)
    (hs : f.schemaOk = true) (hst : f.stageOk = true) (hm : f.mergeOk = true)
    (hrr : f.rereadOk = true) (ht : f.truncateOk = true)
    (hi : f.insertOk = true) :
    ∃ anns, assignAnn (sync_db db rows) 1 rows = some anns ∧
      run_txn db (some rows) f =
        (.success,
         { sync_db db rows with
           annotations := anns, annotation_id_seq := rows.length },
         [.applySchemaStep, .writeTempTable, .mergeDim, .readTomoMap,
          .truncateFacts, .insertFacts]) := by
  have htotal : ∀ r ∈ rows, (tomo_map (sync_db db rows) r.tomo_name).isSome := by
    intro r hr2
    apply tomo_map_isSome_of_mem
    have hname : r.tomo_name ∈ (staged_tomos rows).map Prod.fst := by
      have hu : r.tomo_name ∈ pdUnique (rows.map (fun r => r.tomo_name)) :=
        (mem_pdUnique _ _).mpr (List.mem_map.mpr ⟨r, hr2, rfl⟩)
      simpa [staged_tomos, List.map_map] using hu
    exact (tomoNames_sync_db db rows r.tomo_name).mpr (Or.inr hname)
  obtain ⟨anns, hanns⟩ := assignAnn_total (sync_db db rows) rows 1 htotal
  refine ⟨anns, hanns, ?_⟩
  simp only [run_txn, hs, hst, hm, hrr, ht, hi, Bool.not_true,
    Bool.false_eq_true, if_false, apply_schema, hanns]

theorem etl_main_steady (vault : Vault) (env : Env) (health : Nat → Bool)
    (db : DB) (csv : Option (List CsvRow)) (f : Faults) (c : Creds)
    (hv : vault.secret = some c) (hg : (vaultGate health 2 0 5).1 = true)
    (hc : f.connectOk = true) :
    etl_main vault env health db csv f =
      { outcome := (run_txn db csv f).1, db := (run_txn db csv f).2.1,
        vault := vault,
        trace := .connectDb :: .beginTxn :: (run_txn db csv f).2.2,
        healthPolls := (vaultGate health 2 0 5).2.1,
        sleeps := (vaultGate health 2 0 5).2.2 } := by
  simp only [etl_main, hg, Bool.not_true, Bool.false_eq_true, if_false,
    get_db_credentials_from_vault, hv, hc]

theorem etl_main_unavailable (vault : Vault) (env : Env) (health : Nat → Bool)
    (db : DB) (csv : Option (List CsvRow)) (f : Faults)
    (hg : (vaultGate health 2 0 5).1 = false) :
    etl_main vault env health db csv f =
      { outcome := .fatal "Vault is not available.", db := db, vault := vault,
        trace := [], healthPolls := (vaultGate health 2 0 5).2.1,
        sleeps := (vaultGate health 2 0 5).2.2 } := by
  simp only [etl_main, hg, Bool.not_false, if_true]

theorem run_txn_fk (db : DB) (csv : Option (List CsvRow)) (f : Faults)
    (h : (run_txn db csv f).1 = .success) :
    ∀ a ∈ (run_txn db csv f).2.1.annotations,
      ∃ t, t ∈ (run_txn db csv f).2.1.tomograms ∧ t.tomo_id = a.tomo_id := by
  cases csv with
  | none =>
    exfalso
    cases hs : f.schemaOk <;> simp [run_txn, hs] at h
  | some rows =>
    cases hs : f.schemaOk with
    | false => exact absurd h (by simp [run_txn, hs])
    | true =>
      cases hst : f.stageOk with
      | false => exact absurd h (by simp [run_txn, hs, hst])
      | true =>
        cases hm : f.mergeOk with
        | false => exact absurd h (by simp [run_txn, hs, hst, hm])
        | true =>
          cases hrr : f.rereadOk with
          | false => exact absurd h (by simp [run_txn, hs, hst, hm, hrr])
          | true =>
            cases ht : f.truncateOk with
            | false => exact absurd h (by simp [run_txn, hs, hst, hm, hrr, ht])
            | true =>
              cases hi : f.insertOk with
              | false =>
                exfalso
                simp only [run_txn, hs, hst, hm, hrr, ht, hi, Bool.not_true,
                  Bool.not_false, Bool.false_eq_true, if_false, if_true,
                  apply_schema] at h
                split at h <;> simp_all
              | true =>
                obtain ⟨anns, hass, hrun⟩ :=
                  run_txn_success db rows f hs hst hm hrr ht hi
                rw [hrun]
                intro a ha
                obtain ⟨t, htmem, htid⟩ :=
                  assignAnn_fk (sync_db db rows) rows 1 anns hass a ha
                exact ⟨t, htmem, htid⟩

theorem etl_main_cases (vault : Vault) (env : Env) (health : Nat → Bool)
    (db : DB) (csv : Option (List CsvRow)) (f : Faults) :
    ((etl_main vault env health db csv f).outcome ≠ .success ∧
     (etl_main vault env health db csv f).db = db) ∨
    ((etl_main vault env health db csv f).outcome = (run_txn db csv f).1 ∧
     (etl_main vault env health db csv f).db = (run_txn db csv f).2.1) := by
  simp only [etl_main]
  split
  · exact Or.inl ⟨by simp, rfl⟩
  · split
    · exact Or.inl ⟨by simp, rfl⟩
    · exact Or.inl ⟨by simp, rfl⟩
    · split
      · exact Or.inl ⟨by simp, rfl⟩
      · exact Or.inr ⟨rfl, rfl⟩

end Etl

namespace QueryTool

theorem mem_sqlJoin (db : DB) (a : AnnRow) (t : TomoRow) :
    (a, t) ∈ sqlJoin db ↔
      a ∈ db.annotations ∧ t ∈ db.tomograms ∧ t.tomo_id = a.tomo_id := by
  simp only [sqlJoin, List.mem_flatten, List.mem_map]
  constructor
  · rintro ⟨l, ⟨a2, ha2, rfl⟩, hmem⟩
    rcases List.mem_map.mp hmem with ⟨t2, ht2, heq⟩
    rcases List.mem_filter.mp ht2 with ⟨ht2mem, ht2id⟩
    obtain ⟨rfl, rfl⟩ : a2 = a ∧ t2 = t := by
      constructor <;> [exact congrArg Prod.fst heq; exact congrArg Prod.snd heq]
    exact ⟨ha2, ht2mem, of_decide_eq_true ht2id⟩
  · rintro ⟨ha, ht, hid⟩
    refine ⟨(db.tomograms.filter (fun t2 => t2.tomo_id = a.tomo_id)).map
      (fun t2 => (a, t2)), ⟨a, ha, rfl⟩, ?_⟩
    exact List.mem_map.mpr ⟨t, List.mem_filter.mpr ⟨ht, by simp [hid]⟩, rfl⟩

theorem annotationCount_pos_iff (db : DB) (n : String) :
    0 < annotationCount db n ↔
      n ∈ (sqlJoin db).map (fun p => p.2.tomo_name) := by
  constructor
  · intro h
    have hne : (sqlJoin db).filter (fun p => p.2.tomo_name = n) ≠ [] := by
      intro hnil
      simp [annotationCount, hnil] at h
    obtain ⟨p, hp⟩ := List.exists_mem_of_ne_nil _ hne
    have hmem := List.mem_filter.mp hp
    exact List.mem_map.mpr ⟨p, hmem.1, of_decide_eq_true hmem.2⟩
  · intro h
    rcases List.mem_map.mp h with ⟨p, hp, hname⟩
    have hmem : p ∈ (sqlJoin db).filter (fun p => p.2.tomo_name = n) :=
      List.mem_filter.mpr ⟨hp, by simp [hname]⟩
    have := List.ne_nil_of_mem hmem
    simpa [annotationCount, List.length_pos] using this

theorem mem_insertByCountDesc (p q : String × Nat) :
    ∀ l, q ∈ insertByCountDesc p l ↔ q = p ∨ q ∈ l := by
  intro l
  induction l with
  | nil => simp [insertByCountDesc]
  | cons r rest ih =>
    by_cases h : r.2 < p.2
    · simp [insertByCountDesc, h]
    · simp only [insertByCountDesc, h, if_false, List.mem_cons, ih]
      tauto

theorem mem_sortByCountDesc (q : String × Nat) :
    ∀ l, q ∈ sortByCountDesc l ↔ q ∈ l := by
  intro l
  induction l with
  | nil => simp [sortByCountDesc]
  | cons p rest ih =>
    simp [sortByCountDesc, mem_insertByCountDesc, ih]

theorem pairwise_insertByCountDesc (p : String × Nat) :
    ∀ l, List.Pairwise (fun a b : String × Nat => b.2 ≤ a.2) l →
      List.Pairwise (fun a b : String × Nat => b.2 ≤ a.2)
        (insertByCountDesc p l) := by
  intro l
  induction l with
  | nil => intro _; simp [insertByCountDesc]
  | cons q rest ih =>
    intro hp
    rcases List.pairwise_cons.mp hp with ⟨hq, hrest⟩
    by_cases h : q.2 < p.2
    · simp only [insertByCountDesc, h, if_true]
      refine List.pairwise_cons.mpr ⟨?_, hp⟩
      intro x hx
      rcases List.mem_cons.mp hx with rfl | hx2
      · exact Nat.le_of_lt h
      · exact Nat.le_trans (hq x hx2) (Nat.le_of_lt h)
    · simp only [insertByCountDesc, h, if_false]
      refine List.pairwise_cons.mpr ⟨?_, ih hrest⟩
      intro x hx
      rcases (mem_insertByCountDesc p x rest).mp hx with rfl | hx2
      · exact Nat.le_of_not_lt h
      · exact hq x hx2

theorem pairwise_sortByCountDesc :
    ∀ l, List.Pairwise (fun a b : String × Nat => b.2 ≤ a.2)
      (sortByCountDesc l) := by
  intro l
  induction l with
  | nil => simp [sortByCountDesc]
  | cons p rest ih => exact pairwise_insertByCountDesc p _ ih

end QueryTool

/-! The claim theorems. -/

/-- Claim C5 (confirmed): when the Credential Document exists at the fixed
path, get_db_credentials_from_vault returns exactly it and leaves the Vault
unchanged, and the first-run logic never triggers: the call's result is
identical for every environment (including one missing the first-run
variables) and for every write-fault state, so no first-run environment
variable is read and no secret write is attempted. -/
theorem claim_c5_found_short_circuits (v : Vault) (c : Creds) (env : Env)
    (writeOk : Bool) (hv : v.secret = some c) :
    Etl.get_db_credentials_from_vault v env writeOk = (.creds c, v) ∧
    (∀ (env2 : Env) (w2 : Bool),
      Etl.get_db_credentials_from_vault v env2 w2 =
        Etl.get_db_credentials_from_vault v env writeOk) := by
  constructor
  · simp [Etl.get_db_credentials_from_vault, hv]
  · intro env2 w2
    simp [Etl.get_db_credentials_from_vault, hv]

/-- Witness for claim C5, at a Vault that holds the secret and an
environment missing POSTGRES_USER. -/
theorem claim_c5_witness :
    Etl.get_db_credentials_from_vault vaultFound envMissing false =
      (.creds credsExample, vaultFound) :=
  (claim_c5_found_short_circuits vaultFound credsExample envMissing false rfl).1

/-- Claim C6 (confirmed): on a first run (secret not found), if any of the
three required environment values is absent the run is fatal with the
descriptive message naming the first-run prerequisites, the process exit
status is 1 (non-zero), the Vault is not written, and the database is
untouched. -/
theorem claim_c6_missing_first_run_config (vault : Vault) (env : Env)
    (health : Nat → Bool) (db : DB) (csv : Option (List CsvRow)) (f : Etl.Faults)
    (hv : vault.secret = none)
    (hg : (Etl.vaultGate health 2 0 5).1 = true)
    (henv : env.POSTGRES_USER = none ∨ env.POSTGRES_PASSWORD = none ∨
      env.POSTGRES_DB = none) :
    (Etl.etl_main vault env health db csv f).outcome =
      .fatal "FATAL: On first run, POSTGRES_USER, POSTGRES_PASSWORD, and POSTGRES_DB must be set for Vault initialization." ∧
    Etl.exitCode (Etl.etl_main vault env health db csv f).outcome = 1 ∧
    (Etl.etl_main vault env health db csv f).vault = vault ∧
    (Etl.etl_main vault env health db csv f).db = db ∧
    Etl.Step.writeSecret ∉ (Etl.etl_main vault env health db csv f).trace := by
  have hcond : (truthy env.POSTGRES_USER && truthy env.POSTGRES_PASSWORD &&
      truthy env.POSTGRES_DB) = false := by
    rcases henv with h | h | h <;> simp [truthy, h]
  have hb : Etl.get_db_credentials_from_vault vault env f.vaultWriteOk =
      (.exitFatal firstRunFatalMsg, vault) := by
    simp [Etl.get_db_credentials_from_vault, hv, hcond]
  simp [Etl.etl_main, hg, hb, Etl.exitCode, firstRunFatalMsg]

/-- Witness for claim C6: first run with POSTGRES_USER absent. -/
theorem claim_c6_witness :
    (Etl.etl_main vaultEmpty envMissing healthUp dbEmpty (some csvExample)
      Etl.noFaults).outcome =
      .fatal "FATAL: On first run, POSTGRES_USER, POSTGRES_PASSWORD, and POSTGRES_DB must be set for Vault initialization." ∧
    Etl.exitCode (Etl.etl_main vaultEmpty envMissing healthUp dbEmpty
      (some csvExample) Etl.noFaults).outcome = 1 := by
  have h := claim_c6_missing_first_run_config vaultEmpty envMissing healthUp
    dbEmpty (some csvExample) Etl.noFaults rfl (by decide) (Or.inl rfl)
  exact ⟨h.1, h.2.1⟩

/-- Claim C10 (confirmed): the query tool's get_db_credentials_from_vault is
fatal on the not-found outcome: it exits the process with status 1, returns
the same result for every environment (the first-run variables are never
read), and never writes to the secret store. -/
theorem claim_c10_query_fatal_not_found (v : Vault) (env : Env)
    (hv : v.secret = none) :
    QueryTool.get_db_credentials_from_vault v env =
      (.exitFatal queryFatalMsg, v) ∧
    credExitCode (QueryTool.get_db_credentials_from_vault v env).1 = some 1 ∧
    (∀ env2 : Env, QueryTool.get_db_credentials_from_vault v env2 =
      QueryTool.get_db_credentials_from_vault v env) ∧
    (QueryTool.get_db_credentials_from_vault v env).2 = v := by
  refine ⟨?_, ?_, ?_, ?_⟩ <;>
    simp [QueryTool.get_db_credentials_from_vault, hv, credExitCode]

/-- Claim C7 (confirmed): the readiness gate polls the health check once per
attempt with the fixed interval 2, and succeeds immediately on the first
healthy response (one poll, no sleep); after 5 consecutive failures the run
ends with the fatal "Vault is not available." outcome (exit status 1), with
5 polls, 5 fixed-interval sleeps, an empty operation trace — in particular
zero database connection attempts — and an untouched database. -/
theorem claim_c7_readiness_gate (vault : Vault) (env : Env) (db : DB)
    (csv : Option (List CsvRow)) (f : Etl.Faults) (health : Nat → Bool) :
    ((∀ i, i < 5 → health i = false) →
      (Etl.etl_main vault env health db csv f).outcome =
        .fatal "Vault is not available." ∧
      Etl.exitCode (Etl.etl_main vault env health db csv f).outcome = 1 ∧
      (Etl.etl_main vault env health db csv f).healthPolls = 5 ∧
      (Etl.etl_main vault env health db csv f).sleeps = [2, 2, 2, 2, 2] ∧
      (Etl.etl_main vault env health db csv f).trace = [] ∧
      Etl.Step.connectDb ∉ (Etl.etl_main vault env health db csv f).trace ∧
      (Etl.etl_main vault env health db csv f).db = db) ∧
    (health 0 = true → Etl.vaultGate health 2 0 5 = (true, 1, [])) := by
  constructor
  · intro hall
    have hg : Etl.vaultGate health 2 0 5 = (false, 5, List.replicate 5 2) := by
      have := Etl.vaultGate_all_unhealthy health 2 5 0
        (fun j hj => by simpa using hall j hj)
      simpa using this
    have hmain := Etl.etl_main_unavailable vault env health db csv f
      (by rw [hg])
    rw [hmain]
    simp [hg, Etl.exitCode]
  · intro h0
    have := Etl.vaultGate_first_healthy health 2 0 4 h0
    simpa using this

/-- Witness for claim C7, with a health endpoint that never becomes healthy
and one that is healthy immediately. -/
theorem claim_c7_witness :
    (Etl.etl_main vaultFound envFull healthDown dbEmpty (some csvExample)
      Etl.noFaults).outcome = .fatal "Vault is not available." ∧
    (Etl.etl_main vaultFound envFull healthDown dbEmpty (some csvExample)
      Etl.noFaults).sleeps = [2, 2, 2, 2, 2] ∧
    Etl.vaultGate healthUp 2 0 5 = (true, 1, []) := by
  have h := claim_c7_readiness_gate vaultFound envFull dbEmpty
    (some csvExample) Etl.noFaults healthDown
  have h1 := h.1 (fun i _ => rfl)
  exact ⟨h1.1, h1.2.2.2.1,
    (claim_c7_readiness_gate vaultFound envFull dbEmpty (some csvExample)
      Etl.noFaults healthUp).2 rfl⟩

/-- Claim C1 counterexample: with the secret in place, Vault healthy and the
source CSV missing, the run does not abort before opening a transaction —
the trace of the run shows the connection made, the transaction opened and
the schema DDL executed before the abort, refuting "aborts before opening
any database transaction" and "no schema DDL executed". -/
theorem claim_c1_counterexample :
    Etl.Step.beginTxn ∈
      (Etl.etl_main vaultFound envFull healthUp dbEmpty none
        Etl.noFaults).trace ∧
    Etl.Step.applySchemaStep ∈
      (Etl.etl_main vaultFound envFull healthUp dbEmpty none
        Etl.noFaults).trace := by
  decide

/-- Claim C1 (amended): when the source CSV is missing, the run logs and
returns from inside the already-open transaction, after the connection,
transaction begin, and schema DDL, but before any CSV read: no dimension or
fact rows are written or deleted (the database state is unchanged), the
Vault is untouched, and the process does not exit with an error (exit
status 0). -/
theorem claim_c1_missing_csv_aborts_in_txn (vault : Vault) (env : Env)
    (health : Nat → Bool) (db : DB) (f : Etl.Faults) (c : Creds)
    (hv : vault.secret = some c) (hg : (Etl.vaultGate health 2 0 5).1 = true)
    (hc : f.connectOk = true) (hs : f.schemaOk = true) :
    (Etl.etl_main vault env health db none f).outcome = .csvMissing ∧
    Etl.exitCode (Etl.etl_main vault env health db none f).outcome = 0 ∧
    (Etl.etl_main vault env health db none f).db = db ∧
    (Etl.etl_main vault env health db none f).vault = vault ∧
    (Etl.etl_main vault env health db none f).trace =
      [.connectDb, .beginTxn, .applySchemaStep] ∧
    Etl.Step.truncateFacts ∉ (Etl.etl_main vault env health db none f).trace ∧
    Etl.Step.insertFacts ∉ (Etl.etl_main vault env health db none f).trace := by
  have hmain := Etl.etl_main_steady vault env health db none f c hv hg hc
  have htxn := Etl.run_txn_csv_missing db f hs
  rw [hmain, htxn]
  simp [Etl.exitCode]

/-- Witness for the amended claim C1. -/
theorem claim_c1_witness :
    (Etl.etl_main vaultFound envFull healthUp dbEmpty none
      Etl.noFaults).outcome = .csvMissing ∧
    (Etl.etl_main vaultFound envFull healthUp dbEmpty none
      Etl.noFaults).db = dbEmpty := by
  have h := claim_c1_missing_csv_aborts_in_txn vaultFound envFull healthUp
    dbEmpty Etl.noFaults credsExample rfl (by decide) rfl rfl
  exact ⟨h.1, h.2.2.1⟩

/-- Claim C8 (confirmed): count_annotations is a total function returning a
natural number — it cannot raise — and it returns 0 for every tomogram name
that is unknown or has no annotations. -/
theorem claim_c8_count_zero (db : DB) (tomo_name : String)
    (h : tomo_name ∉ tomoNames db ∨
      ∀ a ∈ db.annotations, ∀ t ∈ db.tomograms,
        t.tomo_id = a.tomo_id → t.tomo_name ≠ tomo_name) :
    QueryTool.count_annotations db tomo_name = 0 := by
  have hnone : ∀ p ∈ QueryTool.sqlJoin db, ¬p.2.tomo_name = tomo_name := by
    rintro ⟨a, t⟩ hp heq
    obtain ⟨ha, ht, hid⟩ := (QueryTool.mem_sqlJoin db a t).mp hp
    rcases h with h | h
    · exact h (List.mem_map.mpr ⟨t, ht, heq⟩)
    · exact h a ha t ht hid heq
  simp only [QueryTool.count_annotations, List.length_eq_zero]
  rw [List.filter_eq_nil_iff]
  intro p hp
  simpa using hnone p hp

/-- Witness for claim C8: an unknown name in a loaded database, and a known
tomogram that has no annotations. -/
theorem claim_c8_witness :
    QueryTool.count_annotations dbLoaded "zz" = 0 ∧
    QueryTool.count_annotations dbNoAnn "A" = 0 := by
  constructor
  · exact claim_c8_count_zero dbLoaded "zz" (Or.inl (by decide))
  · exact claim_c8_count_zero dbNoAnn "A" (Or.inr (by decide))

/-- Claim C9 counterexample: the inner join excludes tomograms with zero
annotations, so for the negative bound min_annotations = -1 the tomogram A
has annotation count 0 strictly greater than the bound yet does not appear
in the result — the result is empty. -/
theorem claim_c9_counterexample :
    "A" ∈ tomoNames dbNoAnn ∧
    QueryTool.annotationCount dbNoAnn "A" = 0 ∧
    (-1 : Int) < ((0 : Nat) : Int) ∧
    ("A", 0) ∉ QueryTool.find_rich_tomograms dbNoAnn (-1) ∧
    QueryTool.find_rich_tomograms dbNoAnn (-1) = [] := by
  decide

/-- Claim C9 (amended): for every min_annotations ≥ 0 the result of
find_rich_tomograms contains exactly the (tomo_name, count) pairs whose
annotation count is strictly greater than the bound; for every
min_annotations (negative included) each returned pair's count is the
tomogram's annotation count and is strictly greater than the bound; and the
result is ordered descending by count. -/
theorem claim_c9_find_rich (db : DB) (m : Int) (n : String) (c : Nat) :
    (0 ≤ m →
      ((n, c) ∈ QueryTool.find_rich_tomograms db m ↔
        QueryTool.annotationCount db n = c ∧ m < (c : Int))) ∧
    ((n, c) ∈ QueryTool.find_rich_tomograms db m →
      QueryTool.annotationCount db n = c ∧ m < (c : Int)) ∧
    List.Pairwise (fun a b : String × Nat => b.2 ≤ a.2)
      (QueryTool.find_rich_tomograms db m) := by
  have hmem : ∀ q : String × Nat,
      q ∈ QueryTool.find_rich_tomograms db m ↔
        (q.1 ∈ pdUnique ((QueryTool.sqlJoin db).map (fun p => p.2.tomo_name)) ∧
         QueryTool.annotationCount db q.1 = q.2 ∧ m < (q.2 : Int)) := by
    rintro ⟨qn, qc⟩
    simp only [QueryTool.find_rich_tomograms, QueryTool.mem_sortByCountDesc,
      List.mem_filter, List.mem_map, decide_eq_true_eq]
    constructor
    · rintro ⟨⟨n2, hn2, heq⟩, hlt⟩
      obtain ⟨rfl, rfl⟩ : n2 = qn ∧ QueryTool.annotationCount db n2 = qc := by
        constructor <;> [exact congrArg Prod.fst heq; exact congrArg Prod.snd heq]
      exact ⟨hn2, rfl, hlt⟩
    · rintro ⟨hn, hcnt, hlt⟩
      exact ⟨⟨qn, hn, by rw [hcnt]⟩, hlt⟩
  refine ⟨?_, ?_, ?_⟩
  · intro hm
    rw [hmem (n, c)]
    constructor
    · rintro ⟨_, hcnt, hlt⟩
      exact ⟨hcnt, hlt⟩
    · rintro ⟨hcnt, hlt⟩
      refine ⟨?_, hcnt, hlt⟩
      have hpos : 0 < c := by omega
      rw [← hcnt] at hpos
      exact (mem_pdUnique _ _).mpr
        ((QueryTool.annotationCount_pos_iff db n).mp hpos)
  · intro hin
    obtain ⟨_, hcnt, hlt⟩ := (hmem (n, c)).mp hin
    exact ⟨hcnt, hlt⟩
  · simp only [QueryTool.find_rich_tomograms]
    exact QueryTool.pairwise_sortByCountDesc _

/-- Witness for the amended claim C9. -/
theorem claim_c9_witness :
    ("t3", 2) ∈ QueryTool.find_rich_tomograms dbLoaded 1 :=
  ((claim_c9_find_rich dbLoaded 1 "t3" 2).1 (by decide)).mpr (by decide)

/-- Witness for claim C10: empty Vault, environment carrying all first-run
variables (which the query tool still never consults). -/
theorem claim_c10_witness :
    QueryTool.get_db_credentials_from_vault vaultEmpty envFull =
      (.exitFatal queryFatalMsg, vaultEmpty) ∧
    credExitCode (QueryTool.get_db_credentials_from_vault vaultEmpty
      envFull).1 = some 1 := by
  have h := claim_c10_query_fatal_not_found vaultEmpty envFull rfl
  exact ⟨h.1, h.2.1⟩

/-- Claim C3 (confirmed): after every successful run each Annotation row's
tomo_id references an existing Tomogram row, and on every non-successful
outcome — any exception raised during the transactional phase (schema
apply, staging, dimension sync, mapping reread, truncate, or fact insert)
rolls the transaction back — the database is exactly the pre-run state, so
a partially loaded fact set is never committed. -/
theorem claim_c3_referential_atomicity (vault : Vault) (env : Env)
    (health : Nat → Bool) (db : DB) (csv : Option (List CsvRow))
    (f : Etl.Faults) :
    ((Etl.etl_main vault env health db csv f).outcome = .success →
      ∀ a ∈ (Etl.etl_main vault env health db csv f).db.annotations,
        ∃ t, t ∈ (Etl.etl_main vault env health db csv f).db.tomograms ∧
          t.tomo_id = a.tomo_id) ∧
    ((Etl.etl_main vault env health db csv f).outcome ≠ .success →
      (Etl.etl_main vault env health db csv f).db = db) := by
  rcases Etl.etl_main_cases vault env health db csv f with
    ⟨hne, hdb⟩ | ⟨ho, hdb⟩
  · exact ⟨fun hsucc => absurd hsucc hne, fun _ => hdb⟩
  · constructor
    · intro hsucc
      rw [hdb]
      rw [ho] at hsucc
      exact Etl.run_txn_fk db csv f hsucc
    · intro hne
      rw [hdb]
      rw [ho] at hne
      exact Etl.run_txn_rollback db csv f _ _ _ rfl hne

/-- Witness for claim C3: the foreign key of a loaded annotation resolves
after a successful concrete run, and a run whose fact insert raises leaves
the database untouched. -/
theorem claim_c3_witness :
    (∃ t, t ∈ (Etl.etl_main vaultFound envFull healthUp dbEmpty
        (some csvExample) Etl.noFaults).db.tomograms ∧
      t.tomo_id = (1 : Nat)) ∧
    (Etl.etl_main vaultFound envFull healthUp dbEmpty (some csvExample)
      ⟨true, true, true, true, true, true, true, false⟩).db = dbEmpty := by
  constructor
  · have h := (claim_c3_referential_atomicity vaultFound envFull healthUp
      dbEmpty (some csvExample) Etl.noFaults).1 (by decide)
      ⟨1, 1, 1, 2, 3⟩ (by decide)
    simpa using h
  · exact (claim_c3_referential_atomicity vaultFound envFull healthUp
      dbEmpty (some csvExample)
      ⟨true, true, true, true, true, true, true, false⟩).2 (by decide)

/-- Claim C2 (confirmed): running the full load pipeline twice with the same
CSV input yields identical Tomogram rows (same generated ids, same count):
both runs succeed and the second run's tomograms table equals the first
run's; moreover re-insertion of already-present tomo_name values through the
dimension merge is a no-op that leaves every existing row — hence every
existing tomo_id — unchanged. -/
theorem claim_c2_idempotent_merge (vault : Vault) (env : Env)
    (health : Nat → Bool) (db : DB) (rows : List CsvRow) (c : Creds)
    (hv : vault.secret = some c)
    (hg : (Etl.vaultGate health 2 0 5).1 = true) :
    (let r1 := Etl.etl_main vault env health db (some rows) Etl.noFaults
     let r2 := Etl.etl_main r1.vault env health r1.db (some rows) Etl.noFaults
     r1.outcome = .success ∧ r2.outcome = .success ∧
       r2.db.tomograms = r1.db.tomograms) ∧
    (∀ (db0 : DB) (staged : List (String × String)),
      (∀ p ∈ staged, p.1 ∈ tomoNames db0) →
      (Etl.mergeTomograms db0 staged).tomograms = db0.tomograms) := by
  constructor
  · obtain ⟨anns1, hass1, hrun1⟩ :=
      Etl.run_txn_success db rows Etl.noFaults rfl rfl rfl rfl rfl rfl
    have h1 := Etl.etl_main_steady vault env health db (some rows)
      Etl.noFaults c hv hg rfl
    rw [hrun1] at h1
    dsimp only
    rw [h1]
    dsimp only
    obtain ⟨anns2, hass2, hrun2⟩ :=
      Etl.run_txn_success
        { Etl.sync_db db rows with
          annotations := anns1, annotation_id_seq := rows.length }
        rows Etl.noFaults rfl rfl rfl rfl rfl rfl
    have h2 := Etl.etl_main_steady vault env health
      { Etl.sync_db db rows with
        annotations := anns1, annotation_id_seq := rows.length }
      (some rows) Etl.noFaults c hv hg rfl
    rw [hrun2] at h2
    rw [h2]
    dsimp only
    refine ⟨rfl, rfl, ?_⟩
    have hprem : ∀ p ∈ Etl.staged_tomos rows,
        p.1 ∈ tomoNames
          { Etl.sync_db db rows with
            annotations := anns1, annotation_id_seq := rows.length,
            temp_tomograms := Etl.staged_tomos rows } := by
      intro p hp
      have hmap : p.1 ∈ (Etl.staged_tomos rows).map Prod.fst :=
        List.mem_map_of_mem Prod.fst hp
      exact (Etl.tomoNames_sync_db db rows p.1).mpr (Or.inr hmap)
    have hnoop := Etl.mergeTomograms_noop (Etl.staged_tomos rows)
      { Etl.sync_db db rows with
        annotations := anns1, annotation_id_seq := rows.length,
        temp_tomograms := Etl.staged_tomos rows } hprem
    simpa [Etl.sync_db] using hnoop
  · exact fun db0 staged h => Etl.mergeTomograms_noop staged db0 h

/-- Witness for claim C2: loading the same CSV twice from the empty
database leaves the tomograms table of the second run equal to the first
run's. -/
theorem claim_c2_witness :
    (Etl.etl_main vaultFound envFull healthUp dbEmpty (some csvExample)
      Etl.noFaults).outcome = .success ∧
    (Etl.etl_main (Etl.etl_main vaultFound envFull healthUp dbEmpty
        (some csvExample) Etl.noFaults).vault envFull healthUp
      (Etl.etl_main vaultFound envFull healthUp dbEmpty (some csvExample)
        Etl.noFaults).db (some csvExample) Etl.noFaults).db.tomograms =
      (Etl.etl_main vaultFound envFull healthUp dbEmpty (some csvExample)
        Etl.noFaults).db.tomograms := by
  obtain ⟨h1, h2, h3⟩ := (claim_c2_idempotent_merge vaultFound envFull
    healthUp dbEmpty csvExample credsExample rfl rfl).1
  exact ⟨h1, h3⟩

/-- Claim C4 (confirmed): on a first run with no stored secret and all three
environment values present and truthy, a successful secret write ends the
run with the distinguished re-run outcome and exit status 0 (distinct from
the fatal status 1), performing no database operation — the database is
unchanged and the trace holds only the secret write; a second invocation
then finds the stored secret, proceeds, and performs the load. -/
theorem claim_c4_first_run_rerun (vault : Vault) (env : Env)
    (health : Nat → Bool) (db : DB) (csv : Option (List CsvRow))
    (rows : List CsvRow)
    (hv : vault.secret = none)
    (hg : (Etl.vaultGate health 2 0 5).1 = true)
    (hu : truthy env.POSTGRES_USER = true)
    (hp : truthy env.POSTGRES_PASSWORD = true)
    (hd : truthy env.POSTGRES_DB = true) :
    ((Etl.etl_main vault env health db csv Etl.noFaults).outcome =
        .rerunRequired ∧
     Etl.exitCode (Etl.etl_main vault env health db csv Etl.noFaults).outcome
        = 0 ∧
     (Etl.etl_main vault env health db csv Etl.noFaults).db = db ∧
     (Etl.etl_main vault env health db csv Etl.noFaults).trace =
        [.writeSecret] ∧
     (Etl.etl_main vault env health db csv Etl.noFaults).vault.secret =
        some ⟨env.POSTGRES_USER.getD "", env.POSTGRES_PASSWORD.getD "",
          env.POSTGRES_DB.getD ""⟩) ∧
    ((Etl.etl_main (Etl.etl_main vault env health db csv Etl.noFaults).vault
        env health db (some rows) Etl.noFaults).outcome = .success ∧
     Etl.Step.insertFacts ∈
       (Etl.etl_main (Etl.etl_main vault env health db csv Etl.noFaults).vault
         env health db (some rows) Etl.noFaults).trace) := by
  have hb : Etl.get_db_credentials_from_vault vault env true =
      (.exitRerun, ⟨some ⟨env.POSTGRES_USER.getD "",
        env.POSTGRES_PASSWORD.getD "", env.POSTGRES_DB.getD ""⟩⟩) := by
    simp [Etl.get_db_credentials_from_vault, hv, hu, hp, hd]
  have hvault1 : (Etl.etl_main vault env health db csv Etl.noFaults).vault =
      ⟨some ⟨env.POSTGRES_USER.getD "", env.POSTGRES_PASSWORD.getD "",
        env.POSTGRES_DB.getD ""⟩⟩ := by
    simp [Etl.etl_main, hg, Etl.noFaults, hb]
  constructor
  · refine ⟨?_, ?_, ?_, ?_, ?_⟩ <;>
      simp [Etl.etl_main, hg, Etl.noFaults, hb, Etl.exitCode]
  · rw [hvault1]
    obtain ⟨anns, hass, hrun⟩ :=
      Etl.run_txn_success db rows Etl.noFaults rfl rfl rfl rfl rfl rfl
    have h2 := Etl.etl_main_steady
      ⟨some ⟨env.POSTGRES_USER.getD "", env.POSTGRES_PASSWORD.getD "",
        env.POSTGRES_DB.getD ""⟩⟩ env health db (some rows) Etl.noFaults
      _ rfl hg rfl
    rw [h2]
    constructor
    · simp [hrun]
    · simp [hrun]

/-- Witness for claim C4: first run from an empty Vault with a complete
environment, second run performs the load. -/
theorem claim_c4_witness :
    (Etl.etl_main vaultEmpty envFull healthUp dbEmpty (some csvExample)
      Etl.noFaults).outcome = .rerunRequired ∧
    (Etl.etl_main (Etl.etl_main vaultEmpty envFull healthUp dbEmpty
        (some csvExample) Etl.noFaults).vault envFull healthUp dbEmpty
      (some csvExample) Etl.noFaults).outcome = .success := by
  have h := claim_c4_first_run_rerun vaultEmpty envFull healthUp dbEmpty
    (some csvExample) csvExample rfl rfl rfl rfl rfl
  exact ⟨h.1.1, h.2.1⟩

end CryoET
